import Mathlib

/-!
Shallow embedding of the `task_manager` Django application
(models.py, managers.py, querysets.py, mixins.py, forms.py, views.py).

The relational store is modelled as lists of rows; querysets become list
filters; the ORM join `project__teams__workers=user` becomes the
corresponding existential over the embedded rows.  A worker references its
team by a nullable foreign key (`Option Nat`); many-to-many relations are
lists of ids on one side.  Only authenticated, active requesters reach the
code under study (LoginRequiredMixin and Django's ModelBackend reject the
rest), so `has_perm` is embedded for active users: a superuser implicitly
holds every permission.
-/

namespace TaskManager

/-- A row of the `Team` table (models.py, `class Team(NameInfo)`). -/
structure Team where
  id : Nat
  name : String
deriving DecidableEq

/-- A row of the `Project` table; `teamIds` embeds the `teams`
many-to-many relation (models.py, `class Project`). -/
structure Project where
  id : Nat
  name : String
  teamIds : List Nat
deriving DecidableEq

/-- A row of the `Worker` table (models.py, `class Worker(AbstractUser)`).
`teamId` is the nullable `team` foreign key; `perms` are the user's
explicitly granted permission strings. -/
structure Worker where
  id : Nat
  username : String
  teamId : Option Nat
  isSuperuser : Bool
  perms : List String
deriving DecidableEq

/-- A row of the `Task` table (models.py, `class Task`); `assigneeIds`
embeds the `assignees` many-to-many relation. -/
structure Task where
  id : Nat
  name : String
  description : String
  projectId : Nat
  creatorId : Option Nat
  assigneeIds : List Nat
  isCompleted : Bool
  priority : Nat
deriving DecidableEq

/-- A row of the `Comment` table (models.py, `class Comment`). -/
structure Comment where
  id : Nat
  content : String
  taskId : Nat
  workerId : Nat
deriving DecidableEq

/-- `Activity.ActivityTypeChoices` (models.py). -/
inductive ActivityType where
  | createTask
  | updateTask
  | addComment
deriving DecidableEq

/-- A row of the `Activity` table (models.py, `class Activity`). -/
structure Activity where
  id : Nat
  type : ActivityType
  taskId : Nat
  workerId : Nat
deriving DecidableEq

/-- The relational store: one list of rows per table. -/
structure DB where
  teams : List Team
  projects : List Project
  workers : List Worker
  tasks : List Task
  comments : List Comment
  activities : List Activity
deriving DecidableEq

/-- Django's `user.has_perm(p)` for an active user (ModelBackend):
superusers implicitly hold every permission. -/
def has_perm (u : Worker) (p : String) : Bool :=
  u.isSuperuser || u.perms.contains p

/-- Django's `user.has_perms(perms)`: all of the listed permissions. -/
def has_perms (u : Worker) (ps : List String) : Bool :=
  ps.all (fun p => has_perm u p)

/-- A fresh autoincrement id for a new `Team` row. -/
def freshTeamId (db : DB) : Nat :=
  1 + db.teams.foldr (fun t m => max t.id m) 0

/-- `Team.get_default_team` (models.py): `get_or_create(name="No team")`.
Returns the sentinel row and the (possibly extended) store. -/
def Team.get_default_team (db : DB) : Team × DB :=
  match db.teams.find? (fun t => t.name = "No team") with
  | some t => (t, db)
  | none =>
      let t : Team := ⟨freshTeamId db, "No team"⟩
      (t, { db with teams := db.teams ++ [t] })

/-- `task.project.teams.workers` contains `u`: the ORM join
`project__teams__workers=user` of `TaskQuerySet.filter_by_user`. -/
def taskProjectTeamsHasWorker (db : DB) (t : Task) (u : Worker) : Bool :=
  db.projects.any fun p =>
    p.id = t.projectId && p.teamIds.any fun tid => u.teamId = some tid

/-- `TaskQuerySet.filter_by_user` (querysets.py): the coarse
`task_manager.view_task` permission returns the unrestricted set, else
filter by `project__teams__workers=user`. -/
def TaskQuerySet.filter_by_user (db : DB) (u : Worker) : List Task :=
  if has_perm u "task_manager.view_task" then db.tasks
  else db.tasks.filter (fun t => taskProjectTeamsHasWorker db t u)

/-- `user.team.projects.all()` (mixins.py line 41): the projects whose
teams include the requester's team.  Persisted workers always carry a
team (`Worker.save`); a teamless requester would raise in the source, so
the `none` case is unreachable for authenticated requesters and is
embedded as the empty list. -/
def userTeamProjects (db : DB) (u : Worker) : List Project :=
  match u.teamId with
  | some tid => db.projects.filter (fun p => p.teamIds.contains tid)
  | none => []

/-- `TaskPermissionRequiredMixin.has_permission` (mixins.py): grant when
the requester holds all declared coarse permissions; otherwise fetch the
task by the URL's pk — a missing task denies — and grant iff its project
is among the requester's team's projects. -/
def TaskPermissionRequiredMixin.has_permission (db : DB) (perms : List String)
    (u : Worker) (k : Nat) : Bool :=
  if has_perms u perms then true
  else
    match db.tasks.find? (fun t => t.id = k) with
    | none => false
    | some task => (userTeamProjects db u).any (fun p => p.id = task.projectId)

/-- HTTP outcomes of the request paths under study. -/
inductive HttpStatus where
  | ok
  | redirect
  | forbidden
  | notFound
deriving DecidableEq

/-- The framework glue around the mixin for an authenticated GET on a
task detail URL: `PermissionRequiredMixin.dispatch` answers 403 when
`has_permission` is false (Django's `AccessMixin.handle_no_permission`
raises `PermissionDenied` for an authenticated user), else
`DetailView.get` renders 200, or the view's own lookup answers 404 for a
missing object. -/
def taskDetailGetDispatch (db : DB) (perms : List String) (u : Worker)
    (k : Nat) : HttpStatus :=
  if TaskPermissionRequiredMixin.has_permission db perms u k then
    match db.tasks.find? (fun t => t.id = k) with
    | some _ => .ok
    | none => .notFound
  else .forbidden

/-- `team__projects__in s` for a worker row: the worker's team is
attached to one of the projects in `s`. -/
def workerTeamProjectsIn (w : Worker) (s : List Project) : Bool :=
  s.any fun p =>
    match w.teamId with
    | some wtid => p.teamIds.contains wtid
    | none => false

/-- `WorkerQuerySet.filter_by_user` (querysets.py): the coarse
`task_manager.view_worker` permission returns the unrestricted set; a
requester parked in the sentinel team sees only their own row; otherwise
`Q(team__projects__in=user.team.projects.all()) | Q(team=user.team)`.
The source's `.distinct()` only collapses duplicate rows produced by the
join and does not change membership. -/
def WorkerQuerySet.filter_by_user (db : DB) (u : Worker) : List Worker :=
  if has_perm u "task_manager.view_worker" then db.workers
  else if u.teamId = some (Team.get_default_team db).1.id then
    db.workers.filter (fun w => w.id = u.id)
  else
    db.workers.filter (fun w =>
      workerTeamProjectsIn w (userTeamProjects db u) || w.teamId == u.teamId)

/-- `TeamQuerySet.filter_by_user` (querysets.py), acting on the current
queryset contents `teams`: the coarse `task_manager.view_team` permission
keeps the set unrestricted; a requester in the sentinel team gets the
empty set; otherwise keep the teams having the requester among their
workers. -/
def TeamQuerySet.filter_by_user (db : DB) (teams : List Team) (u : Worker) :
    List Team :=
  if has_perm u "task_manager.view_team" then teams
  else if u.teamId = some (Team.get_default_team db).1.id then []
  else teams.filter (fun t => u.teamId = some t.id)

/-- `TeamQuerySet.exclude_default_team` (querysets.py):
`self.all().exclude(pk=get_default_team().pk)`. -/
def TeamQuerySet.exclude_default_team (db : DB) (teams : List Team) :
    List Team :=
  teams.filter (fun t => t.id ≠ (Team.get_default_team db).1.id)

/-- The team listing of `TeamListFilterView` (views.py) with no form
filters: the class's base queryset `Team.objects.exclude_default_team()`
further scoped by `QuerysetFilterByUserMixin` through
`TeamQuerySet.filter_by_user`. -/
def teamListQueryset (db : DB) (u : Worker) : List Team :=
  TeamQuerySet.filter_by_user db (TeamQuerySet.exclude_default_team db db.teams) u

/-- Insert-or-update of a worker row by primary key, the effect of
`super().save()` in `Worker.save`. -/
def upsertWorker (db : DB) (w : Worker) : DB :=
  if db.workers.any (fun x => x.id = w.id) then
    { db with workers := db.workers.map (fun x => if x.id = w.id then w else x) }
  else { db with workers := db.workers ++ [w] }

/-- `Worker.save` (models.py): substitute the sentinel team when the team
foreign key is null, then persist.  Returns the saved row and the updated
store. -/
def Worker.save (db : DB) (w : Worker) : Worker × DB :=
  if w.teamId = none then
    let (dt, db') := Team.get_default_team db
    let w' := { w with teamId := some dt.id }
    (w', upsertWorker db' w')
  else (w, upsertWorker db w)

/-- A fresh autoincrement id for a new `Worker` row. -/
def freshWorkerId (db : DB) : Nat :=
  1 + db.workers.foldr (fun w m => max w.id m) 0

/-- `Worker.create_workers` (models.py): the bulk factory.  When no team
is supplied the sentinel team is substituted before the bulk insert.
The Faker-generated profile fields are abstracted to indexed
placeholders; no claim inspects them. -/
def Worker.create_workers (db : DB) (count : Nat) (team : Option Team) :
    List Worker × DB :=
  let (team, db) :=
    match team with
    | none => Team.get_default_team db
    | some t => (t, db)
  let base := freshWorkerId db
  let ws := (List.range count).map fun i =>
    ({ id := base + i, username := "worker" ++ toString (base + i),
       teamId := some team.id, isSuperuser := false, perms := [] } : Worker)
  (ws, { db with workers := db.workers ++ ws })

/-- Python's `x or y` for an optional integer `x`: both `None` and `0`
are falsy. -/
def pyOrNat (x : Option Nat) (y : Nat) : Nat :=
  match x with
  | some n => if n = 0 then y else n
  | none => y

/-- Python's `str.isdigit` restricted to ASCII strings. -/
def strIsDigit (s : String) : Bool :=
  s.data.all Char.isDigit

/-- Python's `int(s)` on a string of ASCII digits. -/
def strToNat (s : String) : Nat :=
  s.data.foldl (fun acc c => acc * 10 + (c.toNat - 48)) 0

/-- `ListFilterView.get_paginate_by` (views.py): `param` is the
`elems_on_page` query parameter, `session` the value stored under the
session key, `paginate_by` the static default.  Returns the session
value after the request and the page size used for this response
(`session.get(...) or self.paginate_by`). -/
def ListFilterView.get_paginate_by (param : Option String)
    (session : Option Nat) (paginate_by : Nat) : Option Nat × Nat :=
  let session' :=
    match param with
    | some s => if s ≠ "" && strIsDigit s then some (strToNat s) else session
    | none => session
  (session', pyOrNat session' paginate_by)

/-- A cleaned filter-form field value. -/
inductive FilterValue where
  | boolV : Bool → FilterValue
  | natV : Nat → FilterValue
  | strV : String → FilterValue
  | workerV : Nat → FilterValue
  | natListV : List Nat → FilterValue
deriving DecidableEq

/-- Python truthiness of a cleaned value (`if value:` in
`ListFilterView.get_filters`): `False`, `0`, `""` and an empty list are
falsy; a model instance is truthy. -/
def FilterValue.truthy : FilterValue → Bool
  | .boolV b => b
  | .natV n => n != 0
  | .strV s => s != ""
  | .workerV _ => true
  | .natListV l => !l.isEmpty

/-- `ListFilterView.get_filters` (views.py): `none` embeds an invalid (or
absent) filter form, for which no predicate is returned; a valid form
yields `Q()` AND-extended by `Q(**{field: value})` for every field with a
truthy cleaned value, embedded as the list of those pairs. -/
def ListFilterView.get_filters
    (cleaned : Option (List (String × FilterValue))) :
    Option (List (String × FilterValue)) :=
  cleaned.map (fun cd => cd.filter (fun fv => fv.2.truthy))

/-- `ListFilterView.get_queryset` (views.py): apply the derived filters
to the scoped queryset; `if filters:` is false both for `None` and for an
empty `Q()`, leaving the scoped set untouched.  `Qsem` is the ORM's
interpretation of one lookup `field=value` on a row. -/
def ListFilterView.get_queryset {α : Type} (Qsem : String → FilterValue → α → Bool)
    (qs : List α) (cleaned : Option (List (String × FilterValue))) : List α :=
  match ListFilterView.get_filters cleaned with
  | none => qs
  | some fs =>
      if fs.isEmpty then qs
      else qs.filter (fun x => fs.all (fun fv => Qsem fv.1 fv.2 x))

/-- `TaskFilterForm.clean_assignees` (forms.py): a truthy `assignees`
boolean resolves to the requesting worker; a falsy one is kept as-is. -/
def TaskFilterForm.clean_assignees (user : Worker) (assignees : Bool) :
    FilterValue :=
  if assignees then .workerV user.id else .boolV false

/-- A fresh autoincrement id for a new `Comment` row. -/
def freshCommentId (db : DB) : Nat :=
  1 + db.comments.foldr (fun c m => max c.id m) 0

/-- A fresh autoincrement id for a new `Activity` row. -/
def freshActivityId (db : DB) : Nat :=
  1 + db.activities.foldr (fun a m => max a.id m) 0

/-- A fresh autoincrement id for a new `Task` row. -/
def freshTaskId (db : DB) : Nat :=
  1 + db.tasks.foldr (fun t m => max t.id m) 0

/-- Python's `str.strip()` (ASCII model): drop leading and trailing
whitespace. -/
def pyStrip (s : String) : String :=
  String.mk
    (((s.data.dropWhile Char.isWhitespace).reverse.dropWhile
        Char.isWhitespace).reverse)

/-- `CommentForm` cleaning of `content`: `forms.CharField` strips
whitespace. -/
def CommentForm.cleaned_content (content : String) : String :=
  pyStrip content

/-- `CommentForm.is_valid()`: `content` is a required model `CharField`
with `max_length=255`, checked on the stripped value. -/
def CommentForm.is_valid (content : String) : Bool :=
  CommentForm.cleaned_content content ≠ "" &&
    (CommentForm.cleaned_content content).length ≤ 255

/-- The request body of a POST to the task detail page: the comment
form's `content` and whether the `assign_to_me` field is present. -/
structure PostData where
  content : String
  hasAssign : Bool
deriving DecidableEq

/-- The comment block of `TaskDetailView.post` (views.py): on a valid
comment form, create the comment (worker = requester, task = the URL's
pk) and an `Activity(ADD_COMMENT)` in one transaction, embedded as the
single resulting store; on an invalid form, change nothing. -/
def commentStep (db : DB) (u : Worker) (k : Nat) (content : String) : DB :=
  if CommentForm.is_valid content then
    let c : Comment := ⟨freshCommentId db, CommentForm.cleaned_content content, k, u.id⟩
    let db1 : DB := { db with comments := db.comments ++ [c] }
    { db1 with activities := db1.activities ++
        [⟨freshActivityId db1, .addComment, k, u.id⟩] }
  else db

/-- The self-assignment toggle on a task row: remove the requester if
currently an assignee, else add them. -/
def toggleAssignee (task : Task) (uid : Nat) : Task :=
  if task.assigneeIds.contains uid then
    { task with assigneeIds := task.assigneeIds.erase uid }
  else { task with assigneeIds := task.assigneeIds ++ [uid] }

/-- The assignment block of `TaskDetailView.post` (views.py): toggle the
requester on the task fetched at the start of the handler and log an
`Activity(UPDATE_TASK)` in one transaction. -/
def assignStep (db : DB) (u : Worker) (k : Nat) (task : Task) : DB :=
  let task' : Task := toggleAssignee task u.id
  let db2 : DB :=
    { db with tasks := db.tasks.map (fun t => if t.id = k then task' else t) }
  { db2 with activities := db2.activities ++
      [⟨freshActivityId db2, .updateTask, k, u.id⟩] }

/-- `TaskDetailView.post` (views.py): fetch the task (`Task.objects.get`
raises on a missing pk, embedded as `none`), run the comment block, run
the assignment block when `assign_to_me` is posted, and redirect to the
task's detail page (the returned pk is the redirect target). -/
def TaskDetailView.post (db : DB) (u : Worker) (k : Nat) (d : PostData) :
    Option (DB × Nat) :=
  match db.tasks.find? (fun t => t.id = k) with
  | none => none
  | some task =>
      let db := commentStep db u k d.content
      let db := if d.hasAssign then assignStep db u k task else db
      some (db, k)

/-- The number of activity rows with the given type, task and worker. -/
def countActivity (db : DB) (ty : ActivityType) (k uid : Nat) : Nat :=
  (db.activities.filter
    (fun a => a.type == ty && a.taskId == k && a.workerId == uid)).length

/-- The client-posted task-creation payload, including whatever
`creator` value the client chose to send. -/
structure TaskCreatePost where
  name : String
  description : String
  priority : Nat
  projectId : Nat
  creatorId : Option Nat
deriving DecidableEq

/-- The cleaned data of `TaskCreateForm` (forms.py).  Fields of the model
not referenced by any claim (deadline, task_type, tags) are omitted. -/
structure TaskCreateData where
  name : String
  description : String
  priority : Nat
  projectId : Nat
deriving DecidableEq

/-- `TaskCreateForm` cleaning: `Meta.fields` lists only name,
description, deadline, task_type, priority, project and tags, so a
posted `creator` value is dropped. -/
def TaskCreateForm.cleaned_data (raw : TaskCreatePost) : TaskCreateData :=
  ⟨raw.name, raw.description, raw.priority, raw.projectId⟩

/-- `TaskCreateView.form_valid` (views.py): `form.save()` inserts the new
task (its `creator` starts at the model default `None`), the handler then
forces `creator` to the requester and saves again, logs
`Activity(CREATE_TASK)` in the same transaction, and redirects to the new
task's detail URL (the returned pk is the redirect target). -/
def TaskCreateView.form_valid (db : DB) (u : Worker) (d : TaskCreateData) :
    DB × Nat :=
  let newId := freshTaskId db
  let task : Task :=
    { id := newId, name := d.name, description := d.description,
      projectId := d.projectId, creatorId := none, assigneeIds := [],
      isCompleted := false, priority := d.priority }
  let task : Task := { task with creatorId := some u.id }
  let db1 : DB := { db with tasks := db.tasks ++ [task] }
  let db2 : DB := { db1 with activities := db1.activities ++
      [⟨freshActivityId db1, .createTask, newId, u.id⟩] }
  (db2, newId)

/-- A 256-character comment body. -/
def longContent : String :=
  String.mk (List.replicate 256 'a')

/-- A two-team, two-project, two-task store used to exercise the scoping
theorems at concrete inputs. -/
def dbEx : DB :=
  { teams := [⟨1, "No team"⟩, ⟨2, "Alpha"⟩, ⟨3, "Beta"⟩]
    projects := [⟨1, "P1", [2]⟩, ⟨2, "P2", [3]⟩]
    workers := [⟨1, "alice", some 2, false, []⟩,
                ⟨2, "bob", some 3, false, []⟩,
                ⟨3, "viewer", some 1, false, ["task_manager.view_task"]⟩]
    tasks := [⟨1, "T1", "d", 1, none, [], false, 1⟩,
              ⟨2, "T2", "d", 2, none, [], false, 1⟩]
    comments := []
    activities := [] }

/-- `alice` of `dbEx` (member of team 2, no permissions). -/
def aliceEx : Worker := ⟨1, "alice", some 2, false, []⟩

/-- `viewer` of `dbEx` (holds the coarse view-task permission). -/
def viewerEx : Worker := ⟨3, "viewer", some 1, false, ["task_manager.view_task"]⟩

/-- C1: for a privileged requester (superuser or holder of
`task_manager.view_task`) the task scoping query is unrestricted; for any
other requester a task is in the scoped set iff some team of its project
has the requester among its workers. -/
theorem task_scoping_spec (db : DB) (u : Worker) :
    ((u.isSuperuser = true ∨ "task_manager.view_task" ∈ u.perms) →
      TaskQuerySet.filter_by_user db u = db.tasks) ∧
    (u.isSuperuser = false → "task_manager.view_task" ∉ u.perms →
      ∀ t : Task, t ∈ TaskQuerySet.filter_by_user db u ↔
        (t ∈ db.tasks ∧ ∃ p ∈ db.projects, p.id = t.projectId ∧
          ∃ tid ∈ p.teamIds, u.teamId = some tid)) := by
  constructor
  · intro h
    have hp : has_perm u "task_manager.view_task" = true := by
      cases h with
      | inl h1 => simp [has_perm, h1]
      | inr h2 => simp [has_perm, h2]
    simp [TaskQuerySet.filter_by_user, hp]
  · intro h1 h2 t
    have hp : has_perm u "task_manager.view_task" = false := by
      simp [has_perm, h1, h2]
    simp only [TaskQuerySet.filter_by_user, hp, Bool.false_eq_true, if_false,
      List.mem_filter, taskProjectTeamsHasWorker, List.any_eq_true,
      Bool.and_eq_true, decide_eq_true_eq]

/-- Witness for C1: at `dbEx`, the privileged requester sees every task
and the plain member of team 2 sees exactly task 1. -/
theorem task_scoping_spec_witness :
    TaskQuerySet.filter_by_user dbEx viewerEx = dbEx.tasks ∧
    (⟨1, "T1", "d", 1, none, [], false, 1⟩ ∈
      TaskQuerySet.filter_by_user dbEx aliceEx ↔
      (⟨1, "T1", "d", 1, none, [], false, 1⟩ ∈ dbEx.tasks ∧
        ∃ p ∈ dbEx.projects, p.id = 1 ∧
          ∃ tid ∈ p.teamIds, aliceEx.teamId = some tid)) :=
  ⟨(task_scoping_spec dbEx viewerEx).1 (Or.inr (by decide)),
   (task_scoping_spec dbEx aliceEx).2 (by decide) (by decide)
     ⟨1, "T1", "d", 1, none, [], false, 1⟩⟩

/-- C2, counterexample: in `dbEx` no task has id 99 and `alice` lacks the
declared coarse permission, yet the request is answered 403 Forbidden —
not 404 Not Found as the claim states. -/
theorem task_gate_missing_task_is_forbidden_not_notFound :
    (∀ t ∈ dbEx.tasks, t.id ≠ 99) ∧
    has_perms aliceEx ["task_manager.view_task"] = false ∧
    taskDetailGetDispatch dbEx ["task_manager.view_task"] aliceEx 99 =
      HttpStatus.forbidden ∧
    taskDetailGetDispatch dbEx ["task_manager.view_task"] aliceEx 99 ≠
      HttpStatus.notFound := by
  refine ⟨by decide, by decide, by decide, by decide⟩

/-- C2, amended: access is granted iff the requester holds all declared
coarse permissions or a task with the URL's id exists whose project is
among the requester's team's projects; a missing task with the coarse
permissions lacking is answered 403 Forbidden (the same as an unrelated
existing task), while with the coarse permissions held a missing task
falls through to the view's own 404 and an existing task renders 200. -/
theorem task_permission_gate_spec (db : DB) (perms : List String)
    (u : Worker) (k utid : Nat) (ht : u.teamId = some utid)
    (hnodup : (db.tasks.map Task.id).Nodup) :
    (TaskPermissionRequiredMixin.has_permission db perms u k = true ↔
      (has_perms u perms = true ∨
        ∃ t ∈ db.tasks, t.id = k ∧
          ∃ p ∈ db.projects, p.id = t.projectId ∧ utid ∈ p.teamIds)) ∧
    (TaskPermissionRequiredMixin.has_permission db perms u k = false →
      taskDetailGetDispatch db perms u k = HttpStatus.forbidden) ∧
    (has_perms u perms = true → (∀ t ∈ db.tasks, t.id ≠ k) →
      taskDetailGetDispatch db perms u k = HttpStatus.notFound) ∧
    (has_perms u perms = true → (∃ t ∈ db.tasks, t.id = k) →
      taskDetailGetDispatch db perms u k = HttpStatus.ok) := by
  have hmem : ∀ {task : Task}, db.tasks.find? (fun t => decide (t.id = k)) = some task →
      task ∈ db.tasks ∧ task.id = k := by
    intro task hf
    exact ⟨List.mem_of_find?_eq_some hf, by
      have := List.find?_some hf
      simpa using this⟩
  refine ⟨?_, ?_, ?_, ?_⟩
  · unfold TaskPermissionRequiredMixin.has_permission
    cases hp : has_perms u perms with
    | true => simp [hp]
    | false =>
      simp only [hp, Bool.false_eq_true, if_false]
      cases hf : db.tasks.find? (fun t => t.id = k) with
      | none =>
        simp only [Bool.false_eq_true, false_iff]
        rintro (h | ⟨t, htmem, htk, _⟩)
        · simp [hp] at h
        · have := List.find?_eq_none.mp hf t htmem
          simp [htk] at this
      | some task =>
        obtain ⟨htaskmem, htaskid⟩ := hmem hf
        simp only [List.any_eq_true, decide_eq_true_eq, userTeamProjects, ht,
          List.mem_filter, List.elem_iff]
        constructor
        · rintro ⟨p, ⟨hpmem, hputid⟩, hpid⟩
          exact Or.inr ⟨task, htaskmem, htaskid, p, hpmem, hpid, hputid⟩
        · rintro (h | ⟨t, htmem, htk, p, hpmem, hpid, hputid⟩)
          · simp [hp] at h
          · have heq : t = task :=
              List.inj_on_of_nodup_map hnodup htmem htaskmem
                (by rw [htk, htaskid])
            exact ⟨p, ⟨hpmem, hputid⟩, by rw [← heq, hpid]⟩
  · intro hfalse
    simp [taskDetailGetDispatch, hfalse]
  · intro hp hnone
    have hf : db.tasks.find? (fun t => t.id = k) = none :=
      List.find?_eq_none.mpr (by intro t htmem; simpa using hnone t htmem)
    simp [taskDetailGetDispatch, TaskPermissionRequiredMixin.has_permission, hp, hf]
  · intro hp ⟨t, htmem, htk⟩
    have : db.tasks.find? (fun t => t.id = k) ≠ none := by
      intro hf
      have := List.find?_eq_none.mp hf t htmem
      simp [htk] at this
    cases hf : db.tasks.find? (fun t => t.id = k) with
    | none => exact absurd hf this
    | some task =>
      simp [taskDetailGetDispatch, TaskPermissionRequiredMixin.has_permission, hp, hf]

/-- Witness for the amended C2: at `dbEx`, for `alice` (team 2) the gate
decision at task 1 coincides with the membership condition, and a missing
task 99 is answered 403 for her. -/
theorem task_permission_gate_spec_witness :
    (TaskPermissionRequiredMixin.has_permission dbEx
        ["task_manager.view_task"] aliceEx 1 = true ↔
      (has_perms aliceEx ["task_manager.view_task"] = true ∨
        ∃ t ∈ dbEx.tasks, t.id = 1 ∧
          ∃ p ∈ dbEx.projects, p.id = t.projectId ∧ 2 ∈ p.teamIds)) ∧
    taskDetailGetDispatch dbEx ["task_manager.view_task"] viewerEx 1 =
      HttpStatus.ok :=
  ⟨(task_permission_gate_spec dbEx ["task_manager.view_task"] aliceEx 1 2
      rfl (by decide)).1,
   (task_permission_gate_spec dbEx ["task_manager.view_task"] viewerEx 1 1
      rfl (by decide)).2.2.2 (by decide)
      ⟨⟨1, "T1", "d", 1, none, [], false, 1⟩, by decide, rfl⟩⟩

/-- C3: a requester for whom `has_perm` grants the coarse view-worker
permission (superusers included, teamless or not) sees every worker; a
non-privileged requester parked in the sentinel team sees only their own
row; any other non-privileged requester sees a worker iff that worker
shares their team or belongs to a team attached to a project the
requester's team is also attached to. -/
theorem worker_scoping_spec (db : DB) (u : Worker) :
    (has_perm u "task_manager.view_worker" = true →
      WorkerQuerySet.filter_by_user db u = db.workers) ∧
    (has_perm u "task_manager.view_worker" = false →
      u.teamId = some (Team.get_default_team db).1.id →
      ∀ w : Worker, w ∈ WorkerQuerySet.filter_by_user db u ↔
        (w ∈ db.workers ∧ w.id = u.id)) ∧
    (has_perm u "task_manager.view_worker" = false →
      ∀ utid : Nat, u.teamId = some utid →
      utid ≠ (Team.get_default_team db).1.id →
      ∀ w : Worker, w ∈ WorkerQuerySet.filter_by_user db u ↔
        (w ∈ db.workers ∧
          (w.teamId = u.teamId ∨
            ∃ p ∈ db.projects, utid ∈ p.teamIds ∧
              ∃ wtid, w.teamId = some wtid ∧ wtid ∈ p.teamIds))) := by
  refine ⟨?_, ?_, ?_⟩
  · intro h
    simp [WorkerQuerySet.filter_by_user, h]
  · intro h hsent w
    simp [WorkerQuerySet.filter_by_user, h, hsent, List.mem_filter]
  · intro h utid hut hne w
    unfold WorkerQuerySet.filter_by_user
    rw [if_neg (by simp [h]), if_neg (by rw [hut]; simp [hne])]
    simp only [List.mem_filter, Bool.or_eq_true, beq_iff_eq, workerTeamProjectsIn,
      userTeamProjects, hut, List.any_eq_true, List.mem_filter, List.elem_iff]
    constructor
    · rintro ⟨hw, hcond | hcond⟩
      · obtain ⟨p, ⟨hpmem, hputid⟩, hrest⟩ := hcond
        cases hwt : w.teamId with
        | none => rw [hwt] at hrest; exact absurd hrest (by simp)
        | some wtid =>
            rw [hwt] at hrest
            exact ⟨hw, Or.inr ⟨p, hpmem, hputid, wtid, rfl, by simpa using hrest⟩⟩
      · exact ⟨hw, Or.inl hcond⟩
    · rintro ⟨hw, hcond | ⟨p, hpmem, hputid, wtid, hwt, hwin⟩⟩
      · exact ⟨hw, Or.inr hcond⟩
      · exact ⟨hw, Or.inl ⟨p, ⟨hpmem, hputid⟩, by rw [hwt]; simpa using hwin⟩⟩

/-- Witness for C3: in `dbEx` (sentinel team 1), `alice` of team 2 is a
non-privileged, non-sentinel requester, and the membership condition is
exercised at `bob` of team 3. -/
theorem worker_scoping_spec_witness :
    (⟨2, "bob", some 3, false, []⟩ : Worker) ∈
      WorkerQuerySet.filter_by_user dbEx aliceEx ↔
      ((⟨2, "bob", some 3, false, []⟩ : Worker) ∈ dbEx.workers ∧
        ((⟨2, "bob", some 3, false, []⟩ : Worker).teamId = aliceEx.teamId ∨
          ∃ p ∈ dbEx.projects, 2 ∈ p.teamIds ∧
            ∃ wtid, (⟨2, "bob", some 3, false, []⟩ : Worker).teamId = some wtid ∧
              wtid ∈ p.teamIds)) :=
  (worker_scoping_spec dbEx aliceEx).2.2 (by decide) 2 rfl (by decide)
    ⟨2, "bob", some 3, false, []⟩

/-- C5: a requester for whom `has_perm` denies the coarse view-team
permission sees the empty team set when parked in the sentinel team and
otherwise exactly the teams having them among their workers; and the
sentinel team never appears in the team listing, for any requester. -/
theorem team_scoping_spec (db : DB) (u : Worker) :
    (has_perm u "task_manager.view_team" = false →
      u.teamId = some (Team.get_default_team db).1.id →
      TeamQuerySet.filter_by_user db db.teams u = []) ∧
    (has_perm u "task_manager.view_team" = false →
      u.teamId ≠ some (Team.get_default_team db).1.id →
      ∀ t : Team, t ∈ TeamQuerySet.filter_by_user db db.teams u ↔
        (t ∈ db.teams ∧ u.teamId = some t.id)) ∧
    (Team.get_default_team db).1 ∉ teamListQueryset db u := by
  refine ⟨?_, ?_, ?_⟩
  · intro h hsent
    simp [TeamQuerySet.filter_by_user, h, hsent]
  · intro h hne t
    unfold TeamQuerySet.filter_by_user
    rw [if_neg (by simp [h]), if_neg hne]
    simp [List.mem_filter]
  · have hsub : ∀ t, t ∈ teamListQueryset db u →
        t ∈ TeamQuerySet.exclude_default_team db db.teams := by
      intro t ht
      unfold teamListQueryset TeamQuerySet.filter_by_user at ht
      split at ht
      · exact ht
      · split at ht
        · simp at ht
        · exact (List.mem_filter.mp ht).1
    intro hmem
    have hexcl := hsub _ hmem
    unfold TeamQuerySet.exclude_default_team at hexcl
    have := (List.mem_filter.mp hexcl).2
    simp at this

/-- Witness for C5: in `dbEx`, `alice` (team 2, not the sentinel team 1)
sees exactly the teams she belongs to. -/
theorem team_scoping_spec_witness :
    (⟨2, "Alpha"⟩ : Team) ∈ TeamQuerySet.filter_by_user dbEx dbEx.teams aliceEx ↔
      ((⟨2, "Alpha"⟩ : Team) ∈ dbEx.teams ∧ aliceEx.teamId = some 2) :=
  (team_scoping_spec dbEx aliceEx).2.1 (by decide) (by decide) ⟨2, "Alpha"⟩

/-- C4: saving a worker with a null team substitutes the sentinel team;
an explicit team is preserved; a saved worker never has a null team; and
the bulk factory gives every created worker the sentinel team when none
is supplied and the supplied team otherwise. -/
theorem worker_team_invariant_spec (db : DB) (w : Worker) (count : Nat)
    (team : Team) :
    (w.teamId = none →
      (Worker.save db w).1.teamId = some (Team.get_default_team db).1.id) ∧
    (∀ tid : Nat, w.teamId = some tid → (Worker.save db w).1 = w) ∧
    (Worker.save db w).1.teamId ≠ none ∧
    (∀ w' ∈ (Worker.create_workers db count none).1,
      w'.teamId = some (Team.get_default_team db).1.id) ∧
    (∀ w' ∈ (Worker.create_workers db count (some team)).1,
      w'.teamId = some team.id) := by
  rcases hdt : Team.get_default_team db with ⟨dt, dbNext⟩
  refine ⟨?_, ?_, ?_, ?_, ?_⟩
  · intro h
    simp [Worker.save, h, hdt]
  · intro tid h
    simp [Worker.save, h]
  · by_cases h : w.teamId = none
    · simp [Worker.save, h, hdt]
    · simp [Worker.save, h]
  · intro w' hw'
    simp only [Worker.create_workers, hdt, List.mem_map, List.mem_range] at hw'
    obtain ⟨i, _, rfl⟩ := hw'
    simp [hdt]
  · intro w' hw'
    simp only [Worker.create_workers, List.mem_map, List.mem_range] at hw'
    obtain ⟨i, _, rfl⟩ := hw'
    rfl

/-- Witness for C4: saving a teamless worker into `dbEx` parks them in
the sentinel team (team 1, "No team"), and a supplied team sticks. -/
theorem worker_team_invariant_spec_witness :
    (Worker.save dbEx ⟨9, "carol", none, false, []⟩).1.teamId = some 1 ∧
    (Worker.save dbEx ⟨9, "carol", some 3, false, []⟩).1 =
      ⟨9, "carol", some 3, false, []⟩ :=
  ⟨((worker_team_invariant_spec dbEx ⟨9, "carol", none, false, []⟩ 0
      ⟨2, "Alpha"⟩).1 rfl).trans (by decide),
   (worker_team_invariant_spec dbEx ⟨9, "carol", some 3, false, []⟩ 0
      ⟨2, "Alpha"⟩).2.1 3 rfl⟩

/-- C6, counterexample: `?elems_on_page=0` is a valid non-negative
integer and is persisted to the session, but it is not used as the
response's page size — `session.get(...) or self.paginate_by` treats 0 as
falsy and falls back to the static default (here 5). -/
theorem page_size_zero_persisted_but_not_used :
    (ListFilterView.get_paginate_by (some "0") none 5).1 = some 0 ∧
    (ListFilterView.get_paginate_by (some "0") none 5).2 = 5 ∧
    (5 : Nat) ≠ 0 := by
  refine ⟨by decide, by decide, by decide⟩

/-- C6, amended: a query parameter that is a valid non-negative integer
is persisted in the session and, when positive, used as this response's
page size, a zero falling back to the static default; an invalid
parameter leaves the session untouched and falls back to the session
value or the static default (Python `or`: a stored 0 also falls back);
an absent parameter works the same way, so a stored positive size
persists across later requests without the parameter. -/
theorem page_size_resolution_spec (s : String) (session : Option Nat)
    (d : Nat) :
    (s ≠ "" → strIsDigit s = true →
      (ListFilterView.get_paginate_by (some s) session d).1 =
          some (strToNat s) ∧
        (strToNat s ≠ 0 →
          (ListFilterView.get_paginate_by (some s) session d).2 = strToNat s) ∧
        (strToNat s = 0 →
          (ListFilterView.get_paginate_by (some s) session d).2 = d)) ∧
    ((s = "" ∨ strIsDigit s = false) →
      ListFilterView.get_paginate_by (some s) session d =
        (session, pyOrNat session d)) ∧
    ListFilterView.get_paginate_by none session d =
      (session, pyOrNat session d) ∧
    (∀ n : Nat, n ≠ 0 →
      ListFilterView.get_paginate_by none (some n) d = (some n, n)) := by
  refine ⟨?_, ?_, ?_, ?_⟩
  · intro hne hdig
    refine ⟨?_, ?_, ?_⟩
    · simp [ListFilterView.get_paginate_by, hne, hdig]
    · intro h0
      simp [ListFilterView.get_paginate_by, hne, hdig, pyOrNat, h0]
    · intro h0
      simp [ListFilterView.get_paginate_by, hne, hdig, pyOrNat, h0]
  · intro h
    cases h with
    | inl h => simp [ListFilterView.get_paginate_by, h]
    | inr h =>
        by_cases hne : s = ""
        · simp [ListFilterView.get_paginate_by, hne]
        · simp [ListFilterView.get_paginate_by, hne, h]
  · rfl
  · intro n hn
    simp [ListFilterView.get_paginate_by, pyOrNat, hn]

/-- Witness for the amended C6: `?elems_on_page=15` on a fresh session
stores 15 and paginates at 15; a later parameterless request still
paginates at 15. -/
theorem page_size_resolution_spec_witness :
    (ListFilterView.get_paginate_by (some "15") none 5).1 = some 15 ∧
    (ListFilterView.get_paginate_by (some "15") none 5).2 = 15 ∧
    ListFilterView.get_paginate_by none (some 15) 5 = (some 15, 15) := by
  obtain ⟨h1, h2, _⟩ :=
    (page_size_resolution_spec "15" none 5).1 (by decide) (by decide)
  exact ⟨h1.trans (by decide), (h2 (by decide)).trans (by decide),
    (page_size_resolution_spec "15" none 5).2.2.2 15 (by decide)⟩

/-- C7: an invalid filter form (`none`) leaves the scoped queryset
untouched — the request succeeds unfiltered; a valid form restricts the
scoped queryset to the rows satisfying every lookup whose cleaned value
is truthy (the conjunction of `Q(**\x7bfield: value\x7d)` terms, `Qsem`
being the ORM's reading of one lookup); and `TaskFilterForm`'s cleaning
resolves a truthy `assignees` boolean to the requesting worker. -/
theorem filter_derivation_spec {α : Type}
    (Qsem : String → FilterValue → α → Bool) (qs : List α) (u : Worker) :
    ListFilterView.get_queryset Qsem qs none = qs ∧
    (∀ cd : List (String × FilterValue), ∀ x : α,
      x ∈ ListFilterView.get_queryset Qsem qs (some cd) ↔
        (x ∈ qs ∧ ∀ fv ∈ cd, fv.2.truthy = true → Qsem fv.1 fv.2 x = true)) ∧
    TaskFilterForm.clean_assignees u true = FilterValue.workerV u.id ∧
    (TaskFilterForm.clean_assignees u false).truthy = false := by
  refine ⟨rfl, ?_, rfl, rfl⟩
  intro cd x
  unfold ListFilterView.get_queryset ListFilterView.get_filters
  simp only [Option.map_some']
  by_cases hemp : (cd.filter (fun fv => fv.2.truthy)).isEmpty
  · rw [if_pos hemp]
    have hnone : ∀ fv ∈ cd, fv.2.truthy = true → False := by
      intro fv hmem htr
      have : fv ∈ cd.filter (fun fv => fv.2.truthy) :=
        List.mem_filter.mpr ⟨hmem, htr⟩
      rw [List.isEmpty_iff.mp hemp] at this
      simp at this
    constructor
    · intro hx
      exact ⟨hx, fun fv hmem htr => absurd (hnone fv hmem htr) not_false⟩
    · exact fun h => h.1
  · rw [if_neg hemp]
    simp only [List.mem_filter, List.all_eq_true, List.mem_filter]
    constructor
    · rintro ⟨hx, hall⟩
      exact ⟨hx, fun fv hmem htr => hall fv ⟨hmem, htr⟩⟩
    · rintro ⟨hx, hall⟩
      exact ⟨hx, fun fv hmem => hall fv hmem.1 hmem.2⟩

/-- Witness for C7: on `dbEx`'s tasks with the "assigned to me" lookup
interpreted as assignee membership, the filtered set at the cleaned data
of `alice`'s truthy `assignees` toggle obeys the conjunction reading. -/
theorem filter_derivation_spec_witness :
    (⟨1, "T1", "d", 1, none, [], false, 1⟩ : Task) ∈
      ListFilterView.get_queryset
        (fun _ v t =>
          match v with
          | .workerV uid => t.assigneeIds.contains uid
          | _ => true)
        dbEx.tasks
        (some [("assignees", TaskFilterForm.clean_assignees aliceEx true)]) ↔
      ((⟨1, "T1", "d", 1, none, [], false, 1⟩ : Task) ∈ dbEx.tasks ∧
        ∀ fv ∈ [("assignees", TaskFilterForm.clean_assignees aliceEx true)],
          fv.2.truthy = true →
          (fun (_ : String) (v : FilterValue) (t : Task) =>
            match v with
            | .workerV uid => t.assigneeIds.contains uid
            | _ => true) fv.1 fv.2
            ⟨1, "T1", "d", 1, none, [], false, 1⟩ = true) :=
  (filter_derivation_spec
    (fun _ v t =>
      match v with
      | .workerV uid => t.assigneeIds.contains uid
      | _ => true)
    dbEx.tasks aliceEx).2.1
    [("assignees", TaskFilterForm.clean_assignees aliceEx true)]
    ⟨1, "T1", "d", 1, none, [], false, 1⟩

/-- `toggleAssignee` keeps the task's primary key. -/
theorem toggleAssignee_id (task : Task) (uid : Nat) :
    (toggleAssignee task uid).id = task.id := by
  unfold toggleAssignee
  split <;> rfl

/-- Replacing the rows of pk `k` by `task'` makes the pk lookup return
`task'`, provided some row with pk `k` was present. -/
theorem find?_map_replace (k : Nat) (task' : Task) (h' : task'.id = k) :
    ∀ l : List Task, l.find? (fun t => t.id = k) ≠ none →
      (l.map (fun t => if t.id = k then task' else t)).find?
        (fun t => t.id = k) = some task'
  | [], hex => by simp at hex
  | a :: l, hex => by
      by_cases ha : a.id = k
      · rw [List.map_cons, if_pos ha, List.find?_cons_of_pos _ (by simp [h'])]
      · rw [List.find?_cons_of_neg _ (by simp [ha])] at hex
        rw [List.map_cons, if_neg ha, List.find?_cons_of_neg _ (by simp [ha])]
        exact find?_map_replace k task' h' l hex

/-- Removing a present assignee: membership after the toggle. -/
theorem toggleAssignee_mem_present (task : Task) (uid : Nat)
    (hnd : task.assigneeIds.Nodup) (h : uid ∈ task.assigneeIds) :
    ∀ x, x ∈ (toggleAssignee task uid).assigneeIds ↔
      (x ∈ task.assigneeIds ∧ x ≠ uid) := by
  intro x
  unfold toggleAssignee
  rw [if_pos (by simpa [List.elem_iff] using h)]
  simpa [hnd.mem_erase_iff] using and_comm

/-- Adding an absent assignee: membership after the toggle. -/
theorem toggleAssignee_mem_absent (task : Task) (uid : Nat)
    (h : uid ∉ task.assigneeIds) :
    ∀ x, x ∈ (toggleAssignee task uid).assigneeIds ↔
      (x ∈ task.assigneeIds ∨ x = uid) := by
  intro x
  unfold toggleAssignee
  rw [if_neg (by simpa [List.elem_iff] using h)]
  simp

/-- Toggling the same worker twice restores the assignee set. -/
theorem toggleAssignee_twice (task : Task) (uid : Nat)
    (hnd : task.assigneeIds.Nodup) :
    ∀ x, x ∈ (toggleAssignee (toggleAssignee task uid) uid).assigneeIds ↔
      x ∈ task.assigneeIds := by
  intro x
  by_cases h : uid ∈ task.assigneeIds
  · have h1 := toggleAssignee_mem_present task uid hnd h
    have huid : uid ∉ (toggleAssignee task uid).assigneeIds := by
      intro hc
      exact ((h1 uid).mp hc).2 rfl
    rw [toggleAssignee_mem_absent _ uid huid x, h1 x]
    constructor
    · rintro (⟨hx, _⟩ | rfl)
      · exact hx
      · exact h
    · intro hx
      by_cases hxu : x = uid
      · exact Or.inr hxu
      · exact Or.inl ⟨hx, hxu⟩
  · have h1 := toggleAssignee_mem_absent task uid h
    have huid : uid ∈ (toggleAssignee task uid).assigneeIds :=
      (h1 uid).mpr (Or.inr rfl)
    have hnd1 : (toggleAssignee task uid).assigneeIds.Nodup := by
      unfold toggleAssignee
      rw [if_neg (by simpa [List.elem_iff] using h)]
      simp [List.nodup_append, hnd, h]
    rw [toggleAssignee_mem_present _ uid hnd1 huid x, h1 x]
    constructor
    · rintro ⟨hx | rfl, hxu⟩
      · exact hx
      · exact absurd rfl hxu
    · intro hx
      refine ⟨Or.inl hx, ?_⟩
      rintro rfl
      exact h hx

/-- The comment block never touches the task table. -/
theorem commentStep_tasks (db : DB) (u : Worker) (k : Nat) (c : String) :
    (commentStep db u k c).tasks = db.tasks := by
  unfold commentStep
  split <;> rfl

/-- The comment block adds no `UPDATE_TASK` activity row. -/
theorem commentStep_countUpdate (db : DB) (u : Worker) (k : Nat) (c : String)
    (k' uid' : Nat) :
    countActivity (commentStep db u k c) .updateTask k' uid' =
      countActivity db .updateTask k' uid' := by
  unfold commentStep countActivity
  split
  · simp [List.filter_append]
  · rfl

/-- The assignment block adds exactly one `UPDATE_TASK` activity row for
its task and worker. -/
theorem assignStep_countUpdate (db : DB) (u : Worker) (k : Nat)
    (task : Task) :
    countActivity (assignStep db u k task) .updateTask k u.id =
      countActivity db .updateTask k u.id + 1 := by
  unfold assignStep countActivity
  simp [List.filter_append]

/-- After the assignment block, the pk lookup returns the toggled row. -/
theorem assignStep_find (db : DB) (u : Worker) (k : Nat) (task : Task)
    (hk : task.id = k) (hex : db.tasks.find? (fun t => t.id = k) ≠ none) :
    (assignStep db u k task).tasks.find? (fun t => t.id = k) =
      some (toggleAssignee task u.id) := by
  unfold assignStep
  exact find?_map_replace k _ (by rw [toggleAssignee_id, hk]) db.tasks hex

/-- C8: an authorized POST carrying the assign field toggles the
requester in the task's assignee set (removed when present, added when
absent) and creates exactly one `Activity(UPDATE_TASK)` row with the
committed membership change; posting the toggle twice restores the
assignee set and leaves exactly two such rows.  `task.assigneeIds.Nodup`
embeds the uniqueness constraint of the many-to-many through table. -/
theorem assign_toggle_spec (db : DB) (u : Worker) (k : Nat) (task : Task)
    (d d' : PostData) (hd : d.hasAssign = true) (hd' : d'.hasAssign = true)
    (hf : db.tasks.find? (fun t => t.id = k) = some task)
    (hnd : task.assigneeIds.Nodup) :
    ∃ db' : DB, TaskDetailView.post db u k d = some (db', k) ∧
      db'.tasks.find? (fun t => t.id = k) = some (toggleAssignee task u.id) ∧
      (u.id ∈ task.assigneeIds →
        ∀ x, x ∈ (toggleAssignee task u.id).assigneeIds ↔
          (x ∈ task.assigneeIds ∧ x ≠ u.id)) ∧
      (u.id ∉ task.assigneeIds →
        ∀ x, x ∈ (toggleAssignee task u.id).assigneeIds ↔
          (x ∈ task.assigneeIds ∨ x = u.id)) ∧
      countActivity db' .updateTask k u.id =
        countActivity db .updateTask k u.id + 1 ∧
      ∃ db'' : DB, TaskDetailView.post db' u k d' = some (db'', k) ∧
        (∀ t'', db''.tasks.find? (fun t => t.id = k) = some t'' →
          ∀ x, x ∈ t''.assigneeIds ↔ x ∈ task.assigneeIds) ∧
        countActivity db'' .updateTask k u.id =
          countActivity db .updateTask k u.id + 2 := by
  have hkid : task.id = k := by simpa using List.find?_some hf
  have hex : (commentStep db u k d.content).tasks.find?
      (fun t => t.id = k) ≠ none := by
    rw [commentStep_tasks, hf]
    simp
  have hf1 : (assignStep (commentStep db u k d.content) u k task).tasks.find?
      (fun t => t.id = k) = some (toggleAssignee task u.id) :=
    assignStep_find _ u k task hkid hex
  refine ⟨assignStep (commentStep db u k d.content) u k task, ?_, hf1, ?_, ?_, ?_, ?_⟩
  · simp [TaskDetailView.post, hf, hd]
  · exact fun h => toggleAssignee_mem_present task u.id hnd h
  · exact fun h => toggleAssignee_mem_absent task u.id h
  · rw [assignStep_countUpdate, commentStep_countUpdate]
  · have hex1 : (commentStep (assignStep (commentStep db u k d.content) u k task)
        u k d'.content).tasks.find? (fun t => t.id = k) ≠ none := by
      rw [commentStep_tasks, hf1]
      simp
    have hf2 : (assignStep (commentStep
        (assignStep (commentStep db u k d.content) u k task) u k d'.content)
        u k (toggleAssignee task u.id)).tasks.find? (fun t => t.id = k) =
        some (toggleAssignee (toggleAssignee task u.id) u.id) :=
      assignStep_find _ u k _ (by rw [toggleAssignee_id, hkid]) hex1
    refine ⟨assignStep (commentStep
      (assignStep (commentStep db u k d.content) u k task) u k d'.content)
      u k (toggleAssignee task u.id), ?_, ?_, ?_⟩
    · simp [TaskDetailView.post, hf1, hd']
    · intro t'' hfind x
      rw [hf2] at hfind
      rw [← Option.some.inj hfind]
      exact toggleAssignee_twice task u.id hnd x
    · rw [assignStep_countUpdate, commentStep_countUpdate,
        assignStep_countUpdate, commentStep_countUpdate]

/-- Witness for C8: in `dbEx`, `alice` posts the assign toggle on task 1
(no assignees): the toggle and the single new `UPDATE_TASK` row are
observed at the concrete store. -/
theorem assign_toggle_spec_witness :
    ∃ db' : DB, TaskDetailView.post dbEx aliceEx 1 ⟨"", true⟩ = some (db', 1) ∧
      countActivity db' .updateTask 1 aliceEx.id =
        countActivity dbEx .updateTask 1 aliceEx.id + 1 := by
  obtain ⟨db', h1, _, _, _, h5, _⟩ :=
    assign_toggle_spec dbEx aliceEx 1 ⟨1, "T1", "d", 1, none, [], false, 1⟩
      ⟨"", true⟩ ⟨"", true⟩ rfl rfl (by decide) (by decide)
  exact ⟨db', h1, h5⟩

/-- C9: creating a task from valid form data appends exactly one task row
whose creator is the requester — whatever creator value the client posted
— together with exactly one `Activity(CREATE_TASK)` row with
worker = requester for that task, and redirects to the new task's detail
URL (the returned pk). -/
theorem task_create_spec (db : DB) (u : Worker) (raw : TaskCreatePost) :
    ∃ t : Task,
      (TaskCreateView.form_valid db u (TaskCreateForm.cleaned_data raw)).1.tasks =
        db.tasks ++ [t] ∧
      t.creatorId = some u.id ∧
      t.id = (TaskCreateView.form_valid db u (TaskCreateForm.cleaned_data raw)).2 ∧
      (TaskCreateView.form_valid db u (TaskCreateForm.cleaned_data raw)).1.activities =
        db.activities ++
          [⟨freshActivityId db, ActivityType.createTask, t.id, u.id⟩] ∧
      (∀ c : Option Nat,
        TaskCreateView.form_valid db u
            (TaskCreateForm.cleaned_data { raw with creatorId := c }) =
          TaskCreateView.form_valid db u (TaskCreateForm.cleaned_data raw)) :=
  ⟨{ id := freshTaskId db, name := raw.name, description := raw.description,
     projectId := raw.projectId, creatorId := some u.id, assigneeIds := [],
     isCompleted := false, priority := raw.priority },
   rfl, rfl, rfl, rfl, fun _ => rfl⟩

set_option maxRecDepth 4000 in
/-- C10, counterexample: a 256-character comment body is non-empty, yet
the comment form's `max_length=255` rejects it, so the POST creates no
comment row and no activity row and only redirects — the claim's
"non-empty content creates exactly one Comment" fails here. -/
theorem comment_overlong_content_creates_nothing :
    longContent ≠ "" ∧
    TaskDetailView.post dbEx aliceEx 1 ⟨longContent, false⟩ =
      some (dbEx, 1) ∧
    dbEx.comments.length = 0 ∧
    countActivity dbEx .addComment 1 aliceEx.id = 0 := by
  refine ⟨by decide, ?_, rfl, rfl⟩
  have hv : CommentForm.is_valid longContent = false := by decide
  simp [TaskDetailView.post, commentStep, hv]
  decide

/-- C10, amended: on an authorized POST to a task's detail page, content
that passes the comment form (non-blank after stripping and at most 255
characters) creates exactly one comment with worker = requester and
task = the URL's task, together with exactly one `Activity(ADD_COMMENT)`
row, in one transaction; content the form rejects (empty, blank or
over-long) leaves the store unchanged; both paths redirect to the task's
detail page. -/
theorem comment_posting_spec (db : DB) (u : Worker) (k : Nat) (task : Task)
    (c : String) (hf : db.tasks.find? (fun t => t.id = k) = some task) :
    (CommentForm.is_valid c = true →
      ∃ db' : DB, TaskDetailView.post db u k ⟨c, false⟩ = some (db', k) ∧
        db'.comments = db.comments ++
          [⟨freshCommentId db, CommentForm.cleaned_content c, k, u.id⟩] ∧
        countActivity db' .addComment k u.id =
          countActivity db .addComment k u.id + 1) ∧
    (CommentForm.is_valid c = false →
      TaskDetailView.post db u k ⟨c, false⟩ = some (db, k)) := by
  constructor
  · intro hv
    refine ⟨commentStep db u k c, ?_, ?_, ?_⟩
    · simp [TaskDetailView.post, hf]
    · simp [commentStep, hv]
    · unfold commentStep countActivity
      simp [hv, List.filter_append]
  · intro hv
    simp [TaskDetailView.post, hf, commentStep, hv]

/-- Witness for the amended C10: `alice` posts "hi" on task 1 of `dbEx`:
one comment row and one `ADD_COMMENT` activity row appear. -/
theorem comment_posting_spec_witness :
    ∃ db' : DB, TaskDetailView.post dbEx aliceEx 1 ⟨"hi", false⟩ =
        some (db', 1) ∧
      db'.comments = dbEx.comments ++
        [⟨freshCommentId dbEx, CommentForm.cleaned_content "hi", 1, aliceEx.id⟩] ∧
      countActivity db' .addComment 1 aliceEx.id =
        countActivity dbEx .addComment 1 aliceEx.id + 1 :=
  (comment_posting_spec dbEx aliceEx 1 ⟨1, "T1", "d", 1, none, [], false, 1⟩
    "hi" (by decide)).1 (by decide)

end TaskManager
